import Mathlib

/-!
# http_server: cache, retry policy and fetch multiplexer

A shallow embedding of the Go packages `internal/multiplexer/cache`,
`internal/multiplexer/retryer` and `internal/multiplexer`, followed by the
properties established about them.

Conventions of the embedding:

* a Go `string` is its sequence of bytes (`GoString`);
* a Go `map[string]V` is an association list with at most one entry per key
  (`GoMap V`); the nil map is `none` where a field can hold it;
* Go `int` / `int64` values are `Int`; the one subtraction whose operands are
  unconstrained clock readings wraps explicitly (`sub64`);
* `float64` values are modelled as far as the comparison `<` needs (`F64`);
* everything a function obtains from its environment (the clock, an HTTP
  exchange, the state of a context, which `select` case fires) is an explicit
  argument;
* a call that cannot return is an explicit outcome (`blocked`, `panicked`).
-/

namespace HttpServer

/-! ## Go values -/

/-- A Go string: a sequence of bytes. -/
abbrev GoString := List (Fin 256)

/-- The `error` values that flow through the three packages. -/
inductive GoError where
  /-- Variable `cache.ErrorSettingCacheItem` -/
  | ErrorSettingCacheItem
  /-- Variable `cache.ErrorNotFoundCacheItem` -/
  | ErrorNotFoundCacheItem
  /-- Variable `cache.ErrorCacheUnavailable` -/
  | ErrorCacheUnavailable
  /-- Variable `context.Canceled` -/
  | Canceled
  /-- Variable `context.DeadlineExceeded` -/
  | DeadlineExceeded
  /-- an error of `http.NewRequestWithContext`, `client.Do` or `io.ReadAll`,
  identified by a tag -/
  | transport (tag : Nat)
  /-- The error `fmt.Errorf("got %d status code for %s", code, url)` -/
  | statusCode (code : Int) (url : GoString)
  deriving DecidableEq, Repr

/-- Go expression `s[:n]` on a string: the first `n` bytes, and a run-time
panic (`none`) when `n` exceeds `len(s)`. -/
def sliceTo (s : GoString) (n : Nat) : Option GoString :=
  if n ≤ s.length then some (s.take n) else none

/-- A Go `map[string]V`, as an association list. -/
abbrev GoMap (V : Type) := List (GoString × V)

namespace GoMap

variable {V : Type}

/-- Map read `m[k]` with the comma-ok result. -/
def lookup (m : GoMap V) (k : GoString) : Option V :=
  (m.find? (fun e => decide (e.1 = k))).map Prod.snd

/-- Builtin `delete(m, k)`. -/
def delete (m : GoMap V) (k : GoString) : GoMap V :=
  m.filter (fun e => !decide (e.1 = k))

/-- Assignment `m[k] = v`. -/
def store (m : GoMap V) (k : GoString) (v : V) : GoMap V :=
  (k, v) :: delete m k

/-- Builtin `len(m)`. -/
def len (m : GoMap V) : Nat := m.length

/-- The keys present in the map. -/
def keys (m : GoMap V) : List GoString := m.map Prod.fst

end GoMap

/-- Reduction of an integer to the `int64` range (two's complement wrap). -/
def wrapInt64 (x : Int) : Int := (x + 2 ^ 63) % 2 ^ 64 - 2 ^ 63

/-- Go `a - b` on `int64` operands. -/
def sub64 (a b : Int) : Int := wrapInt64 (a - b)

/-! ## `sync.RWMutex` -/

/-- State of a `sync.RWMutex`: the number of read locks held, whether the
write lock is held, and whether a goroutine is parked in `Lock` waiting for the
readers to leave (a pending writer). -/
structure RWMutex where
  readers : Nat
  writer : Bool
  waiting : Bool
  deriving DecidableEq, Repr

/-- How a call of `RLock` or `Lock` goes: the caller gets the lock, or it is
parked; `mu` is the mutex afterwards. -/
inductive Acquire where
  | got (mu : RWMutex)
  | parked (mu : RWMutex)
  deriving DecidableEq, Repr

namespace RWMutex

/-- An unlocked mutex, `&sync.RWMutex{}`. -/
def free : RWMutex := { readers := 0, writer := false, waiting := false }

/-- Method `RLock`: the caller is parked while the write lock is held and
also while a writer is pending. -/
def RLock (mu : RWMutex) : Acquire :=
  if mu.writer || mu.waiting then .parked mu
  else .got { mu with readers := mu.readers + 1 }

/-- Method `RUnlock`; when the last reader leaves, a pending writer gets the
write lock. -/
def RUnlock (mu : RWMutex) : RWMutex :=
  if mu.readers - 1 = 0 ∧ mu.waiting = true then
    { readers := 0, writer := true, waiting := false }
  else { mu with readers := mu.readers - 1 }

/-- Method `Lock`: the caller is parked behind another writer (one that holds
the lock or is pending); otherwise it becomes the pending writer and is parked
as long as a read lock is held; otherwise it gets the write lock. -/
def Lock (mu : RWMutex) : Acquire :=
  if mu.writer || mu.waiting then .parked mu
  else if mu.readers ≠ 0 then .parked { mu with waiting := true }
  else .got { mu with writer := true }

/-- Method `Unlock`. -/
def Unlock (mu : RWMutex) : RWMutex := { mu with writer := false }

end RWMutex

/-! ## Package `cache` -/

/-- Struct `cachedResponse`. -/
structure cachedResponse where
  timestamp : Int
  body : GoString
  deriving DecidableEq, Repr

/-- Struct `cache`. The field `data` is `none` for the nil map. -/
structure cache where
  data : Option (GoMap cachedResponse)
  mu : RWMutex
  cacheTTL : Int
  available : Bool
  deriving DecidableEq, Repr

/-- Constant `cacheTTLDefault`. -/
def cacheTTLDefault : Int := 5

/-- How a call on the cache ends: it returns `val` and leaves the cache in
state `c`; or the calling goroutine is parked on a lock for good, holding what
it had locked before, with the cache in state `c`; or it panics. -/
inductive Outcome (α : Type) where
  | ret (val : α) (c : cache)
  | blocked (c : cache)
  | panicked
  deriving DecidableEq, Repr

/-- Method `(*cache).Set`; `now` is the reading of `time.Now().Unix()`.
The result is the returned `error` (`none` for nil). -/
def cache.Set (c : cache) (now : Int) (key value : GoString) : Outcome (Option GoError) :=
  if !c.available then
    .ret (some .ErrorCacheUnavailable) c
  else
    match c.mu.Lock with
    | .parked mu => .blocked { c with mu := mu }
    | .got mu =>
      match c.data with
      | none => .panicked
      | some d =>
        .ret none { c with
          data := some (GoMap.store d key { timestamp := now, body := value })
          mu := mu.Unlock }

/-- Method `(*cache).Get`; `now` is the reading of `time.Now().Unix()`.
The read lock taken on entry is released by a deferred `RUnlock`, that is only
when the method returns; the write lock of the expiry branch is requested
while that read lock is still held. -/
def cache.Get (c : cache) (now : Int) (key : GoString) : Outcome (GoString × Option GoError) :=
  if !c.available then
    .ret ([], some .ErrorCacheUnavailable) c
  else
    match c.mu.RLock with
    | .parked mu => .blocked { c with mu := mu }
    | .got mu1 =>
      match (c.data.getD []).lookup key with
      | none => .ret ([], some .ErrorNotFoundCacheItem) { c with mu := mu1.RUnlock }
      | some resp =>
        if sub64 now resp.timestamp > c.cacheTTL then
          match mu1.Lock with
          | .parked mu2 => .blocked { c with mu := mu2 }
          | .got mu2 =>
            .ret ([], some .ErrorNotFoundCacheItem) { c with
              data := c.data.map (fun d => GoMap.delete d key)
              mu := mu2.Unlock.RUnlock }
        else
          .ret (resp.body, none) { c with mu := mu1.RUnlock }

/-- The sweep the background goroutine of `NewCache` runs on a tick of its
ticker, with `now` the clock reading used for the entries. -/
def cache.sweep (c : cache) (now : Int) : Outcome Unit :=
  match c.mu.Lock with
  | .parked mu => .blocked { c with mu := mu }
  | .got mu =>
    .ret () { c with
      data := c.data.map (fun d => d.filter (fun e => !decide (sub64 now e.2.timestamp > c.cacheTTL)))
      mu := mu.Unlock }

/-- The `ctx.Done()` branch of the background goroutine: the flag is cleared
and the map is dropped (no lock is taken). -/
def cache.shutdown (c : cache) : cache :=
  { c with available := false, data := none }

/-- A cache together with its background goroutine: `bg` tells whether the
goroutine started by `NewCache` is still in its loop. -/
structure CacheSys where
  c : cache
  bg : Bool
  deriving DecidableEq, Repr

/-- Function `NewCache`: the cache it returns, with its goroutine started.
(A negative TTL, for which `time.NewTicker` panics in the goroutine, is not
told apart here.) -/
def NewCache (cacheTTL : Int) : CacheSys :=
  let ttl := if cacheTTL = 0 then cacheTTLDefault else cacheTTL
  { c := { data := some [], mu := RWMutex.free, cacheTTL := ttl, available := true }
    bg := true }

/-- What can happen to a cache: a call of `Set` or `Get`, a tick of the
ticker, the end of the governing context. -/
inductive CacheOp where
  | set (now : Int) (key value : GoString)
  | get (now : Int) (key : GoString)
  | tick (now : Int)
  | ctxDone
  deriving DecidableEq, Repr

/-- What an operation hands back to its caller. -/
inductive CacheReply where
  | setReply (err : Option GoError)
  | getReply (value : GoString) (err : Option GoError)
  | silent
  deriving DecidableEq, Repr

/-- One operation on the cache. A tick or the end of the context is only
observed by a goroutine that is still in its loop; on `ctxDone` the goroutine
returns. `none` when the operation does not complete. -/
def CacheSys.step (s : CacheSys) : CacheOp → Option (CacheSys × CacheReply)
  | .set now key value =>
    match s.c.Set now key value with
    | .ret e c => some ({ s with c := c }, .setReply e)
    | _ => none
  | .get now key =>
    match s.c.Get now key with
    | .ret r c => some ({ s with c := c }, .getReply r.1 r.2)
    | _ => none
  | .tick now =>
    if s.bg then
      match s.c.sweep now with
      | .ret _ c => some ({ s with c := c }, .silent)
      | _ => none
    else some (s, .silent)
  | .ctxDone =>
    if s.bg then some ({ c := s.c.shutdown, bg := false }, .silent)
    else some (s, .silent)

/-- A sequence of operations, with the replies in order; `none` when one of
them does not complete. -/
def CacheSys.run (s : CacheSys) : List CacheOp → Option (CacheSys × List CacheReply)
  | [] => some (s, [])
  | op :: ops =>
    match s.step op with
    | none => none
    | some (s1, r) =>
      match CacheSys.run s1 ops with
      | none => none
      | some (s2, rs) => some (s2, r :: rs)

/-- Replies of an unavailable cache: `ErrorCacheUnavailable` on `Set`, the
empty string with `ErrorCacheUnavailable` on `Get`. -/
def unavailableReply : CacheOp → CacheReply
  | .set _ _ _ => .setReply (some .ErrorCacheUnavailable)
  | .get _ _ => .getReply [] (some .ErrorCacheUnavailable)
  | .tick _ => .silent
  | .ctxDone => .silent

/-- Type `DummyCache`, method `Set`. -/
def DummyCache.Set (_key _value : GoString) : Option GoError := none

/-- Type `DummyCache`, method `Get`. -/
def DummyCache.Get (_key : GoString) : GoString × Option GoError :=
  ([], some .ErrorNotFoundCacheItem)

/-! ## `float64`, as far as it is compared -/

/-- A `float64` value up to what `<` can tell: a NaN, an infinity, or a finite
value, the latter written as the rational number it stands for. -/
inductive F64 where
  | nan
  | negInf
  | fin (q : ℚ)
  | posInf
  deriving DecidableEq

/-- Go `a < b` on `float64`: false as soon as one side is a NaN. -/
def F64.lt : F64 → F64 → Bool
  | .nan, _ => false
  | _, .nan => false
  | .negInf, .negInf => false
  | .negInf, _ => true
  | .fin _, .negInf => false
  | .fin a, .fin b => decide (a < b)
  | .fin _, .posInf => true
  | .posInf, _ => false

/-- Go `a >= b` on `float64`: false as soon as one side is a NaN. -/
def F64.ge : F64 → F64 → Bool
  | .nan, _ => false
  | _, .nan => false
  | a, b => !F64.lt a b

/-! ## Package `retryer` -/

/-- Struct `retryer`, without its load probe `getFillRatio`: the value the
probe returns is an argument of `Retry`. -/
structure retryer where
  numRetries : Int
  delay : Int
  fillRatio : F64
  deriving DecidableEq

/-- Constant `numRetriesDefault`. -/
def numRetriesDefault : Int := 3

/-- Constant `delayDefault`. -/
def delayDefault : Int := 3

/-- Constant `fillRatioDefault`, 0.8. -/
def fillRatioDefault : F64 := .fin (4 / 5)

/-- Function `NewRetryer`. The quotient `float64(fillRatioInt) / 100.0` is
taken as the rational number it approximates. -/
def NewRetryer (numRetries delay fillRatioInt : Int) : retryer :=
  { numRetries := if numRetries = 0 then numRetriesDefault else numRetries
    delay := if delay = 0 then delayDefault else delay
    fillRatio :=
      if fillRatioInt < 0 ∨ fillRatioInt > 100 then fillRatioDefault
      else .fin ((fillRatioInt : ℚ) / 100) }

/-- Which case of the `select` in `Retry` fires: the timer of the delay, or
`ctx.Done()`. -/
inductive WaitOutcome where
  | elapsed
  | ctxDone
  deriving DecidableEq, Repr

/-- Result of a call of `Retry`: the boolean it returns, and whether the call
went through the delay wait (the `select`). -/
structure RetryResult where
  approved : Bool
  waited : Bool
  deriving DecidableEq, Repr

/-- Method `(*retryer).Retry`. `reading` is what `r.getFillRatio()` returns in
the comparison (the earlier call in the same method only feeds the log), and
`wait` settles the `select`. -/
def retryer.Retry (r : retryer) (reading : F64) (wait : WaitOutcome) (attempt : Int) :
    RetryResult :=
  if attempt ≥ r.numRetries then
    { approved := false, waited := false }
  else if F64.lt reading r.fillRatio then
    match wait with
    | .ctxDone => { approved := false, waited := true }
    | .elapsed => { approved := true, waited := true }
  else
    { approved := false, waited := false }

/-- Method `(*DummyRetryer).Retry`. -/
def DummyRetryer.Retry (attempt : Int) : Bool :=
  if attempt < 2 then true else false

/-- Interface `Retryer`, with its two implementations. -/
inductive Retryer where
  | real (r : retryer)
  | dummy
  deriving DecidableEq

/-- Method `Retry` called through the interface. -/
def Retryer.Retry (R : Retryer) (reading : F64) (wait : WaitOutcome) (attempt : Int) :
    RetryResult :=
  match R with
  | .real r => r.Retry reading wait attempt
  | .dummy => { approved := DummyRetryer.Retry attempt, waited := false }

/-! ## Package `multiplexer` -/

/-- Interface `cache.Cache`, with its two implementations. -/
inductive Cache where
  | real (c : cache)
  | dummy
  deriving DecidableEq, Repr

/-- How a call through an interface ends. -/
inductive Call (α : Type) where
  | ret (val : α)
  | blocked
  | panicked
  deriving DecidableEq, Repr

/-- Method `Get` called through the interface: the pair returned and the cache
afterwards. -/
def Cache.Get (C : Cache) (now : Int) (key : GoString) :
    Call ((GoString × Option GoError) × Cache) :=
  match C with
  | .dummy => .ret (DummyCache.Get key, .dummy)
  | .real c =>
    match c.Get now key with
    | .ret r c1 => .ret (r, .real c1)
    | .blocked _ => .blocked
    | .panicked => .panicked

/-- Method `Set` called through the interface: the error returned and the
cache afterwards. -/
def Cache.Set (C : Cache) (now : Int) (key value : GoString) :
    Call (Option GoError × Cache) :=
  match C with
  | .dummy => .ret (DummyCache.Set key value, .dummy)
  | .real c =>
    match c.Set now key value with
    | .ret e c1 => .ret (e, .real c1)
    | .blocked _ => .blocked
    | .panicked => .panicked

/-- Struct `Multiplexer`. The channel `sem` is its capacity `semCap`; its
current length is an argument where it is read. -/
structure Multiplexer where
  retryer : Retryer
  cache : Cache
  fetchTimeOut : Int
  semCap : Nat
  maxURLs : Int
  workerLimit : Int
  deriving DecidableEq

/-- Struct `result`. -/
structure result where
  url : GoString
  body : GoString
  deriving DecidableEq, Repr

/-- Struct `Options`; `Cache` is `none` for a nil interface value. -/
structure Options where
  MaxUrls : Int
  RequestsLimit : Int
  WorkerLimit : Int
  FetchTimeout : Int
  Cache : Option Cache
  Retry : Bool
  NumRetries : Int
  Delay : Int
  FillRatio : Int
  deriving DecidableEq

/-- Constant `maxURLsDefault`. -/
def maxURLsDefault : Int := 20

/-- Constant `requestLimitDefault`. -/
def requestLimitDefault : Int := 100

/-- Constant `workerLimitDefault`. -/
def workerLimitDefault : Int := 4

/-- Constant `fetchTimeoutDefault`. -/
def fetchTimeoutDefault : Int := 1

/-- Function `NewMultiplexer`; `none` when `make(chan struct{}, requestLimit)`
panics on a negative size. -/
def NewMultiplexer (opts : Options) : Option Multiplexer :=
  let requestLimit := if opts.RequestsLimit ≠ 0 then opts.RequestsLimit else requestLimitDefault
  if requestLimit < 0 then none
  else
    some
      { maxURLs := if opts.MaxUrls ≠ 0 then opts.MaxUrls else maxURLsDefault
        semCap := requestLimit.toNat
        workerLimit := if opts.WorkerLimit ≠ 0 then opts.WorkerLimit else workerLimitDefault
        fetchTimeOut := if opts.FetchTimeout ≠ 0 then opts.FetchTimeout else fetchTimeoutDefault
        cache := match opts.Cache with
          | some C => C
          | none => .dummy
        retryer :=
          if opts.Retry then .real (NewRetryer opts.NumRetries opts.Delay opts.FillRatio)
          else .dummy }

/-- Method `getRatio`, with `semLen` the value of `len(m.sem)`: the quotient
of two `float64`, a NaN for 0 / 0. -/
def Multiplexer.getRatio (m : Multiplexer) (semLen : Nat) : F64 :=
  if m.semCap = 0 then (if semLen = 0 then .nan else .posInf)
  else .fin ((semLen : ℚ) / (m.semCap : ℚ))

/-! ### `context.Context` -/

/-- State of a context made by `context.WithCancelCause`: what `ctx.Err()` and
`context.Cause(ctx)` return (`none` for nil, that is while the context is not
done). -/
structure Context where
  err : Option GoError
  cause : Option GoError
  deriving DecidableEq, Repr

/-- A context that is not done. -/
def Context.live : Context := { err := none, cause := none }

/-- Method `Err`. -/
def Context.Err (ctx : Context) : Option GoError := ctx.err

/-- Function `context.Cause`. -/
def Context.Cause (ctx : Context) : Option GoError := ctx.cause

/-- The `CancelCauseFunc` of the context: the first call marks the context
done, `Err` becomes `Canceled` and the cause is the argument (`Canceled` when
the argument is nil); later calls change nothing. -/
def Context.cancel (ctx : Context) (cause : Option GoError) : Context :=
  match ctx.err with
  | some _ => ctx
  | none => { err := some .Canceled, cause := some (cause.getD .Canceled) }

/-- The parent context ends with error `err` and cause `cause`: a child that
is not yet done takes both over. -/
def Context.parentDone (ctx : Context) (err cause : GoError) : Context :=
  match ctx.err with
  | some _ => ctx
  | none => { err := some err, cause := some cause }

/-- Function `context.WithCancelCause`: the child starts in the state of its
parent. -/
def Context.WithCancelCause (parent : Context) : Context := parent

/-! ### `fetchURL` -/

/-- What `client.Do(req)` returns: an error, or a response with its status
code and with what `io.ReadAll(resp.Body)` will return. -/
inductive DoResult where
  | err (e : GoError)
  | resp (StatusCode : Int) (body : GoString) (readErr : Option GoError)
  deriving DecidableEq, Repr

/-- The environment of one call of `fetchURL`. Iterations of the loop are
numbered from 0; attempts are numbered by the value of `attempts` after the
increment, from 1. -/
structure FetchEnv where
  /-- the clock when the cache is read -/
  getNow : Int
  /-- the clock when the cache is written -/
  setNow : Int
  /-- the error of `http.NewRequestWithContext`, `none` for nil -/
  newRequestErr : Option GoError
  /-- the value of `ctx.Err()` at the `select` that opens iteration `i` -/
  ctxErr : Nat → Option GoError
  /-- the result of `client.Do` in attempt `k` -/
  clientDo : Nat → DoResult
  /-- the value of `len(m.sem)` when the retryer is asked after attempt `k` -/
  semLen : Nat → Nat
  /-- the `select` of the retryer after attempt `k` -/
  wait : Nat → WaitOutcome
  /-- the value of `ctx.Err()` after the loop -/
  ctxErrAfter : Option GoError

/-- How the retry loop of `fetchURL` is left. -/
inductive LoopExit where
  /-- the `select` found the context done: `return "", ctx.Err()` -/
  | ctxDone (e : GoError) (attempts approvals waits : Nat)
  /-- a `break`, with the last result of `client.Do` -/
  | broke (last : DoResult) (attempts approvals waits : Nat)
  | outOfFuel
  deriving DecidableEq, Repr

/-- The `for` loop of `fetchURL`. `attempts` is the Go variable; `approvals`
counts the calls of `Retry` that returned true and `waits` those that went
through the delay wait. -/
def Multiplexer.fetchLoop (m : Multiplexer) (env : FetchEnv) :
    Nat → Nat → Nat → Nat → LoopExit
  | 0, _, _, _ => .outOfFuel
  | fuel + 1, attempts, approvals, waits =>
    match env.ctxErr attempts with
    | some e => .ctxDone e attempts approvals waits
    | none =>
      let attempts := attempts + 1
      match env.clientDo attempts with
      | .err e =>
        let r := m.retryer.Retry (m.getRatio (env.semLen attempts)) (env.wait attempts) attempts
        let waits := if r.waited then waits + 1 else waits
        if !r.approved then .broke (.err e) attempts approvals waits
        else m.fetchLoop env fuel attempts (approvals + 1) waits
      | .resp code body readErr => .broke (.resp code body readErr) attempts approvals waits

/-- What a call of `fetchURL` did. -/
structure FetchReport where
  /-- the string returned -/
  body : GoString
  /-- the error returned, `none` for nil -/
  err : Option GoError
  /-- calls of `client.Do` -/
  attempts : Nat
  /-- calls of `Retry` that returned true -/
  approvals : Nat
  /-- calls of `Retry` that went through the delay wait -/
  waits : Nat
  /-- the cache afterwards -/
  cache : Cache
  deriving DecidableEq, Repr

/-- How a call of `fetchURL` ends. -/
inductive FetchOutcome where
  | ret (r : FetchReport)
  | blocked
  | panicked
  | outOfFuel
  deriving DecidableEq, Repr

/-- Method `fetchURL`; `fuel` bounds the iterations of the loop. -/
def Multiplexer.fetchURL (m : Multiplexer) (env : FetchEnv) (fuel : Nat) (url : GoString) :
    FetchOutcome :=
  match m.cache.Get env.getNow url with
  | .blocked => .blocked
  | .panicked => .panicked
  | .ret ((cachedRes, none), C) =>
    .ret { body := cachedRes, err := none, attempts := 0, approvals := 0, waits := 0, cache := C }
  | .ret ((_, some _), C) =>
    match env.newRequestErr with
    | some e =>
      .ret { body := [], err := some e, attempts := 0, approvals := 0, waits := 0, cache := C }
    | none =>
      match m.fetchLoop env fuel 0 0 0 with
      | .outOfFuel => .outOfFuel
      | .ctxDone e a p w =>
        .ret { body := [], err := some e, attempts := a, approvals := p, waits := w, cache := C }
      | .broke (.err e) a p w =>
        .ret { body := [], err := some e, attempts := a, approvals := p, waits := w, cache := C }
      | .broke (.resp code body readErr) a p w =>
        match env.ctxErrAfter with
        | some e =>
          .ret { body := [], err := some e, attempts := a, approvals := p, waits := w, cache := C }
        | none =>
          if code ≠ 200 then
            .ret { body := [], err := some (.statusCode code url), attempts := a, approvals := p,
                   waits := w, cache := C }
          else
            match readErr with
            | some e =>
              .ret { body := [], err := some e, attempts := a, approvals := p, waits := w,
                     cache := C }
            | none =>
              match C.Set env.setNow url body with
              | .blocked => .blocked
              | .panicked => .panicked
              | .ret (_, C1) =>
                .ret { body := body, err := none, attempts := a, approvals := p, waits := w,
                       cache := C1 }

/-! ### `worker` and `fetchURLs` -/

/-- What a worker does with what `fetchURL` returned for `url`. -/
inductive WorkerAction where
  /-- the send `results <- result{url: url, body: resp}` -/
  | send (res : result)
  /-- the call `cancel(err)`, after which the worker returns -/
  | cancel (err : GoError)
  deriving DecidableEq, Repr

/-- The body of the loop of method `worker`, after `fetchURL` returned
`(resp, err)` for `url`. -/
def Multiplexer.worker (url : GoString) (resp : GoString) (err : Option GoError) : WorkerAction :=
  match err with
  | some e => .cancel e
  | none => .send { url := url, body := resp }

/-- What the main loop of `fetchURLs` meets, in the order it happens. -/
inductive LoopEvent where
  /-- a worker acts: it cancels the context, or its send is received by the
  `res := <-resultCh` case -/
  | worker (a : WorkerAction)
  /-- the parent context ends -/
  | parentDone (err cause : GoError)
  /-- the `select` takes the `<-ctx.Done()` case -/
  | done
  deriving DecidableEq, Repr

/-- How `fetchURLs` ends: it returns the pair `(responses, err)`; or it
panics; or it is still in its `select` when the events are used up. -/
inductive BatchOutcome where
  | ret (responses : Option (GoMap GoString)) (err : Option GoError)
  | panicked
  | waiting (ctx : Context) (responses : GoMap GoString)
  deriving DecidableEq, Repr

/-- The loop labelled `loop` of `fetchURLs`, for a batch of `n` URLs. The
`<-ctx.Done()` case can only be taken once the context is done. -/
def Multiplexer.fetchURLsLoop (n : Nat) :
    Context → GoMap GoString → List LoopEvent → BatchOutcome
  | ctx, responses, [] => .waiting ctx responses
  | ctx, responses, .worker (.cancel e) :: es =>
    Multiplexer.fetchURLsLoop n (ctx.cancel (some e)) responses es
  | ctx, responses, .parentDone err cause :: es =>
    Multiplexer.fetchURLsLoop n (ctx.parentDone err cause) responses es
  | ctx, responses, .done :: es =>
    match ctx.Err with
    | some e => .ret none (some e)
    | none => Multiplexer.fetchURLsLoop n ctx responses es
  | ctx, responses, .worker (.send res) :: es =>
    match sliceTo res.body 20 with
    | none => .panicked
    | some preview =>
      let responses := GoMap.store responses res.url preview
      if responses.len ≥ n then .ret (some responses) none
      else Multiplexer.fetchURLsLoop n ctx responses es

/-- Method `fetchURLs`, as seen from its main goroutine: `parent` is the state
of the context passed in and `events` what the loop meets. -/
def Multiplexer.fetchURLs (_m : Multiplexer) (parent : Context) (urls : List GoString)
    (events : List LoopEvent) : BatchOutcome :=
  Multiplexer.fetchURLsLoop urls.length (Context.WithCancelCause parent) [] events

/-! ### `FetchHandler` -/

/-- The body of an HTTP reply of `FetchHandler`. -/
inductive ReplyBody where
  /-- the text "too many requests. try again later" -/
  | tooManyRequests
  /-- the text "Invalid JSON format" -/
  | invalidJSON
  /-- the text "too many urls" -/
  | tooManyURLs
  /-- the call `http.Error(w, err.Error(), ...)` -/
  | errorText (e : GoError)
  /-- the JSON encoding of the results -/
  | json (results : GoMap GoString)
  deriving DecidableEq, Repr

/-- What a call of `FetchHandler` did: the status code and body of the reply
(`none` when the handler does not get to reply) and the batch it handed to
`fetchURLs` (`none` when `fetchURLs` was not called). -/
structure HandlerReport where
  status : Option Nat
  body : Option ReplyBody
  fetched : Option (List GoString)
  deriving DecidableEq, Repr

/-- Method `FetchHandler`. `semLen` is `len(m.sem)` on entry, `decoded` the
URL list the JSON decoder produced (`none` when decoding fails), and `fetch`
what `m.fetchURLs` does with the batch. -/
def Multiplexer.FetchHandler (m : Multiplexer) (semLen : Nat) (decoded : Option (List GoString))
    (fetch : List GoString → BatchOutcome) : HandlerReport :=
  if semLen ≥ m.semCap then
    { status := some 429, body := some .tooManyRequests, fetched := none }
  else
    match decoded with
    | none => { status := some 400, body := some .invalidJSON, fetched := none }
    | some urls =>
      if urls.length = 0 ∨ (urls.length : Int) > m.maxURLs then
        { status := some 400, body := some .tooManyURLs, fetched := none }
      else
        match fetch urls with
        | .ret _ (some err) =>
          { status := some 500, body := some (.errorText err), fetched := some urls }
        | .ret results none =>
          { status := some 200, body := some (.json (results.getD [])), fetched := some urls }
        | _ => { status := none, body := none, fetched := some urls }

/-! ## Concrete values used in the examples -/

/-- The key of the cache tests, "salam". -/
def salam : GoString := [115, 97, 108, 97, 109]

/-- The value of the cache tests, "popolam". -/
def popolam : GoString := [112, 111, 112, 111, 108, 97, 109]

/-- A cache with TTL 1 that holds "salam" since time 0. -/
def staleCache : cache :=
  { data := some [(salam, { timestamp := 0, body := popolam })], mu := RWMutex.free,
    cacheTTL := 1, available := true }

/-- The cache `staleCache` after "u" has been set at time 2. -/
def busyCache : cache :=
  { data := some [([117], { timestamp := 2, body := popolam }),
      (salam, { timestamp := 0, body := popolam })],
    mu := RWMutex.free, cacheTTL := 1, available := true }

/-- The cache `busyCache` with one read lock held and a writer pending:
what a `Get` parked in its expiry branch leaves behind. -/
def wedgedCache : cache :=
  { data := some [([117], { timestamp := 2, body := popolam }),
      (salam, { timestamp := 0, body := popolam })],
    mu := { readers := 1, writer := false, waiting := true }, cacheTTL := 1, available := true }

/-- The URL of the handler tests, "u" for short. -/
def exampleURL : GoString := [117]

/-- The options of the handler tests, `Options{}`. -/
def zeroOptions : Options :=
  { MaxUrls := 0, RequestsLimit := 0, WorkerLimit := 0, FetchTimeout := 0, Cache := none,
    Retry := false, NumRetries := 0, Delay := 0, FillRatio := 0 }

/-- The multiplexer `NewMultiplexer(Options{})` builds. -/
def zeroMultiplexer : Multiplexer :=
  { retryer := .dummy, cache := .dummy, fetchTimeOut := 1, semCap := 100, maxURLs := 20,
    workerLimit := 4 }

/-- Options with the retry policy on: 3 attempts, threshold 80 percent. -/
def retryOptions : Options :=
  { MaxUrls := 0, RequestsLimit := 0, WorkerLimit := 0, FetchTimeout := 0, Cache := none,
    Retry := true, NumRetries := 3, Delay := 30, FillRatio := 80 }

/-- The multiplexer `NewMultiplexer` builds from `retryOptions`. -/
def retryMultiplexer : Multiplexer :=
  { retryer := .real { numRetries := 3, delay := 30, fillRatio := .fin ((80 : ℚ) / 100) },
    cache := .dummy, fetchTimeOut := 1, semCap := 100, maxURLs := 20, workerLimit := 4 }

/-- An environment without cancellation and without load, whose exchanges are
given by `clientDo`. -/
def quietEnv (clientDo : Nat → DoResult) : FetchEnv :=
  { getNow := 0, setNow := 0, newRequestErr := none, ctxErr := fun _ => none,
    clientDo := clientDo, semLen := fun _ => 0, wait := fun _ => .elapsed, ctxErrAfter := none }

/-- A server that answers 500 twice and then 200 with the body "popolam". -/
def twice500 : Nat → DoResult := fun k =>
  if k = 3 then .resp 200 popolam none else .resp 500 [] none

/-- A server that is unreachable twice and then answers 200 with the body
"popolam". -/
def twiceDown : Nat → DoResult := fun k =>
  if k = 3 then .resp 200 popolam none else .err (.transport k)

/-- A server that is never reachable. -/
def alwaysDown : Nat → DoResult := fun k => .err (.transport k)

/-- A body of 20 bytes. -/
def body20 : GoString := List.replicate 20 97

/-- The error of a worker whose URL answered 500. -/
def got500 : GoError := .statusCode 500 exampleURL

/-! ## Lemmas on the basic values -/

theorem wrapInt64_of_range (x : Int) (h1 : -(2 ^ 63) ≤ x) (h2 : x < 2 ^ 63) :
    wrapInt64 x = x := by
  unfold wrapInt64
  rw [Int.emod_eq_of_lt (by omega) (by omega)]
  omega

theorem GoMap.lookup_store_self {V : Type} (m : GoMap V) (k : GoString) (v : V) :
    (GoMap.store m k v).lookup k = some v := by
  simp [GoMap.lookup, GoMap.store]

theorem GoMap.lookup_delete_ne {V : Type} (m : GoMap V) (k k1 : GoString) (h : k1 ≠ k) :
    (GoMap.delete m k1).lookup k = m.lookup k := by
  induction m with
  | nil => rfl
  | cons e m ih =>
    obtain ⟨a, b⟩ := e
    unfold GoMap.lookup GoMap.delete at ih ⊢
    by_cases h1 : a = k1
    · have h2 : ¬ k1 = k := h
      subst h1
      simpa [List.filter_cons, List.find?_cons, h2] using ih
    · by_cases h2 : a = k
      · subst h2
        simp [List.filter_cons, List.find?_cons, h1]
      · simpa [List.filter_cons, List.find?_cons, h1, h2] using ih

theorem GoMap.lookup_store_ne {V : Type} (m : GoMap V) (k k1 : GoString) (v : V) (h : k1 ≠ k) :
    (GoMap.store m k1 v).lookup k = m.lookup k := by
  have h1 := GoMap.lookup_delete_ne m k k1 h
  unfold GoMap.store
  unfold GoMap.lookup at h1 ⊢
  simpa [List.find?_cons, h] using h1

theorem RWMutex.Lock_after_RLock (mu mu1 : RWMutex) (h : mu.RLock = .got mu1) :
    mu1.Lock = .parked { mu1 with waiting := true } := by
  unfold RWMutex.RLock at h
  by_cases hw : (mu.writer || mu.waiting) = true
  · simp [hw] at h
  · rw [if_neg hw] at h
    injection h with h
    subst h
    simp only [Bool.or_eq_true, not_or, Bool.not_eq_true] at hw
    simp [RWMutex.Lock, hw.1, hw.2]

/-! ## The cache -/

/-- In `Get`, an entry found expired is never removed: the write lock is
requested while the read lock of the same call is held, so the call is parked
on it for good, as the pending writer. This holds for every available cache
whose mutex nobody holds for writing or waits on. -/
theorem cache.Get_expired_blocks (c : cache) (now : Int) (key : GoString) (resp : cachedResponse)
    (hav : c.available = true) (hw : c.mu.writer = false) (hp : c.mu.waiting = false)
    (hfind : (c.data.getD []).lookup key = some resp)
    (hexp : sub64 now resp.timestamp > c.cacheTTL) :
    c.Get now key =
      .blocked
        { c with mu := { readers := c.mu.readers + 1, writer := false, waiting := true } } := by
  unfold cache.Get
  simp [hav, RWMutex.RLock, hw, hp, hfind, hexp, RWMutex.Lock]

/-- A cache whose mutex has a pending writer lets no call through: `Set`,
`Get` and the sweep are parked and leave the cache as it is, although the cache
is available. -/
theorem cache.parked_behind_pending_writer (c : cache) (now : Int) (key value : GoString)
    (hav : c.available = true) (hp : c.mu.waiting = true) :
    c.Set now key value = .blocked c ∧ c.Get now key = .blocked c ∧
      c.sweep now = .blocked c := by
  obtain ⟨cdata, cmu, cttl, cav⟩ := c
  simp only at hav hp
  subst hav
  refine ⟨?_, ?_, ?_⟩
  · simp [cache.Set, RWMutex.Lock, hp]
  · simp [cache.Get, RWMutex.RLock, hp]
  · simp [cache.sweep, RWMutex.Lock, hp]

/-- C6: the run of `TestCacheTTL` with the clock at 0 for `Set` and at 2 for
`Get`, TTL 1. `Set` stores the entry; `Get` finds it expired and then does not
return: it is parked on `c.mu.Lock()` with its own read lock held, and the
entry is still in the store. -/
theorem C6_expired_Get_never_returns :
    (NewCache 1).c.Set 0 salam popolam =
        .ret none
          { data := some [(salam, { timestamp := 0, body := popolam })], mu := RWMutex.free,
            cacheTTL := 1, available := true } ∧
      sub64 2 0 > 1 ∧
      cache.Get
          { data := some [(salam, { timestamp := 0, body := popolam })], mu := RWMutex.free,
            cacheTTL := 1, available := true } 2 salam =
        .blocked
          { data := some [(salam, { timestamp := 0, body := popolam })],
            mu := { readers := 1, writer := false, waiting := true }, cacheTTL := 1,
            available := true } ∧
      CacheSys.run (NewCache 1) [.set 0 salam popolam, .get 2 salam] = none := by
  refine ⟨by decide, by decide, by decide, by decide⟩

/-- C7: once the background goroutine has taken the `ctx.Done()` branch, the
cache is unavailable; from then on `Set` returns `ErrorCacheUnavailable` and
`Get` returns the empty string with `ErrorCacheUnavailable`, for every key and
value, both leave the cache as it is, and every sequence of later operations
leaves the cache in that same unavailable state with those replies. -/
theorem C7_unavailable_after_ctxDone (s0 : CacheSys) (hbg : s0.bg = true) (ops : List CacheOp) :
    s0.step .ctxDone = some ({ c := s0.c.shutdown, bg := false }, .silent) ∧
      s0.c.shutdown.available = false ∧
      (∀ now key value,
        s0.c.shutdown.Set now key value = .ret (some .ErrorCacheUnavailable) s0.c.shutdown) ∧
      (∀ now key,
        s0.c.shutdown.Get now key = .ret ([], some .ErrorCacheUnavailable) s0.c.shutdown) ∧
      CacheSys.run { c := s0.c.shutdown, bg := false } ops =
        some ({ c := s0.c.shutdown, bg := false }, ops.map unavailableReply) := by
  refine ⟨by simp [CacheSys.step, hbg], rfl, ?_, ?_, ?_⟩
  · intro now key value
    simp [cache.Set, cache.shutdown]
  · intro now key
    simp [cache.Get, cache.shutdown]
  · induction ops with
    | nil => rfl
    | cons op ops ih =>
      cases op <;>
        simp [CacheSys.run, CacheSys.step, cache.Set, cache.Get, cache.shutdown,
          unavailableReply] at ih ⊢ <;>
        simp [ih]

/-- C7, at the run of `TestCacheInaccessible` extended by a key set before the
context ends. -/
theorem C7_unavailable_after_ctxDone_witness :
    ({ c := { data := some [(salam, { timestamp := 0, body := popolam })], mu := RWMutex.free,
              cacheTTL := 10, available := true },
       bg := true } : CacheSys).bg = true ∧
      CacheSys.run
          { c := cache.shutdown
              { data := some [(salam, { timestamp := 0, body := popolam })], mu := RWMutex.free,
                cacheTTL := 10, available := true },
            bg := false }
          [.set 2 salam popolam, .get 2 salam] =
        some
          ({ c := cache.shutdown
              { data := some [(salam, { timestamp := 0, body := popolam })], mu := RWMutex.free,
                cacheTTL := 10, available := true },
             bg := false },
           [.setReply (some .ErrorCacheUnavailable), .getReply [] (some .ErrorCacheUnavailable)]) :=
  ⟨rfl,
    (C7_unavailable_after_ctxDone
      { c := { data := some [(salam, { timestamp := 0, body := popolam })], mu := RWMutex.free,
               cacheTTL := 10, available := true },
        bg := true } rfl [.set 2 salam popolam, .get 2 salam]).2.2.2.2⟩

/-- On an available cache whose mutex is free (map allocated, TTL `T` an
`int64`), `Set` of `k` to `v` at time `s` returns nil; a `Get` of `k` at any time `now`
with `|now - s| ≤ T` then returns `v` with a nil error and leaves the cache as
it is; and after a further `Set` of another key the same `Get` still returns
`v` with a nil error. -/
theorem cache.Set_then_Get_of_free (c : cache) (d : GoMap cachedResponse) (s now : Int) (k v : GoString)
    (hav : c.available = true) (hd : c.data = some d) (hmu : c.mu = RWMutex.free)
    (hT : c.cacheTTL < 2 ^ 63) (hdist : |now - s| ≤ c.cacheTTL) :
    c.Set s k v =
        .ret none { c with data := some (GoMap.store d k { timestamp := s, body := v }) } ∧
      cache.Get { c with data := some (GoMap.store d k { timestamp := s, body := v }) } now k =
        .ret (v, none) { c with data := some (GoMap.store d k { timestamp := s, body := v }) } ∧
      ∀ (k1 v1 : GoString) (s1 : Int), k1 ≠ k →
        cache.Set { c with data := some (GoMap.store d k { timestamp := s, body := v }) } s1 k1 v1 =
            .ret none
              { c with
                data := some (GoMap.store (GoMap.store d k { timestamp := s, body := v }) k1
                  { timestamp := s1, body := v1 }) } ∧
          cache.Get
              { c with
                data := some (GoMap.store (GoMap.store d k { timestamp := s, body := v }) k1
                  { timestamp := s1, body := v1 }) } now k =
            .ret (v, none)
              { c with
                data := some (GoMap.store (GoMap.store d k { timestamp := s, body := v }) k1
                  { timestamp := s1, body := v1 }) } := by
  have habs := abs_le.mp hdist
  have hfresh : ¬ sub64 now s > c.cacheTTL := by
    unfold sub64
    rw [wrapInt64_of_range (now - s) (by omega) (by omega)]
    omega
  obtain ⟨cdata, cmu, cttl, cav⟩ := c
  simp only at hav hd hmu hT hfresh
  subst hav hd hmu
  refine ⟨?_, ?_, ?_⟩
  · simp [cache.Set, RWMutex.Lock, RWMutex.Unlock, RWMutex.free]
  · simp [cache.Get, RWMutex.RLock, RWMutex.RUnlock, RWMutex.free, GoMap.lookup_store_self,
      hfresh]
  · intro k1 v1 s1 hne
    refine ⟨?_, ?_⟩
    · simp [cache.Set, RWMutex.Lock, RWMutex.Unlock, RWMutex.free]
    · simp [cache.Get, RWMutex.RLock, RWMutex.RUnlock, RWMutex.free,
        GoMap.lookup_store_ne _ k k1 _ hne, GoMap.lookup_store_self, hfresh]

/-- The run of `TestCacheSetGet`: TTL 5, `Set` and `Get` at the same clock
reading. -/
theorem TestCacheSetGet_run :
    (NewCache 5).c.Set 7 salam popolam =
        .ret none
          { (NewCache 5).c with
            data := some (GoMap.store [] salam { timestamp := 7, body := popolam }) } ∧
      cache.Get
          { (NewCache 5).c with
            data := some (GoMap.store [] salam { timestamp := 7, body := popolam }) } 7 salam =
        .ret (popolam, none)
          { (NewCache 5).c with
            data := some (GoMap.store [] salam { timestamp := 7, body := popolam }) } :=
  ⟨(cache.Set_then_Get_of_free (NewCache 5).c [] 7 7 salam popolam rfl rfl rfl (by decide) (by decide)).1,
    (cache.Set_then_Get_of_free (NewCache 5).c [] 7 7 salam popolam rfl rfl rfl (by decide) (by decide)).2.1⟩

/-- C8: a cache with TTL 1 that holds "salam" since time 0. At time 2, `Set`
of "u" returns nil; a `Get` of "salam" finds that entry expired and is parked
for good with its read lock held; the cache is still available, and from then
on the `Get` of "u", at distance 0 from its `Set` and with no `Set` of "u" in
between, does not return "popolam" but is parked, and so is every further
`Set`. -/
theorem C8_Set_and_Get_park_after_parked_Get :
    (NewCache 1).c.Set 0 salam popolam = .ret none staleCache ∧
      staleCache.Set 2 exampleURL popolam = .ret none busyCache ∧
      busyCache.Get 2 exampleURL = .ret (popolam, none) busyCache ∧
      busyCache.Get 2 salam = .blocked wedgedCache ∧
      wedgedCache.available = true ∧
      wedgedCache.Get 2 exampleURL = .blocked wedgedCache ∧
      wedgedCache.Set 2 exampleURL popolam = .blocked wedgedCache ∧
      wedgedCache.Set 2 salam popolam = .blocked wedgedCache := by
  refine ⟨by decide, by decide, by decide, by decide, by decide, by decide, by decide,
    by decide⟩

/-! ## The retry policy -/

theorem F64.lt_false_of_ge (a b : F64) (h : F64.ge a b = true) : F64.lt a b = false := by
  cases a <;> cases b <;> simp_all [F64.ge, F64.lt]

/-- C4: for the retryer built by `NewRetryer`, with cap `m` its `numRetries`
and threshold `t` its `fillRatio`, for every attempt number `a`, probe reading
`r` and outcome of the wait: `Retry` returns false without waiting when
`a ≥ m`; returns false without waiting when `a < m` and `r ≥ t`; when `a < m`
and `r < t` it goes through the wait and returns true if the delay elapses,
false if the context ends first; so it returns true exactly when `a < m`,
`r < t` and the delay elapses. -/
theorem C4_Retry_decision (numRetries delay fillRatioInt : Int) (r : F64) (w : WaitOutcome)
    (a : Int) :
    (a ≥ (NewRetryer numRetries delay fillRatioInt).numRetries →
        (NewRetryer numRetries delay fillRatioInt).Retry r w a =
          { approved := false, waited := false }) ∧
      (a < (NewRetryer numRetries delay fillRatioInt).numRetries →
        F64.ge r (NewRetryer numRetries delay fillRatioInt).fillRatio = true →
        (NewRetryer numRetries delay fillRatioInt).Retry r w a =
          { approved := false, waited := false }) ∧
      (a < (NewRetryer numRetries delay fillRatioInt).numRetries →
        F64.lt r (NewRetryer numRetries delay fillRatioInt).fillRatio = true →
        (NewRetryer numRetries delay fillRatioInt).Retry r .elapsed a =
            { approved := true, waited := true } ∧
          (NewRetryer numRetries delay fillRatioInt).Retry r .ctxDone a =
            { approved := false, waited := true }) ∧
      (((NewRetryer numRetries delay fillRatioInt).Retry r w a).approved = true ↔
        a < (NewRetryer numRetries delay fillRatioInt).numRetries ∧
          F64.lt r (NewRetryer numRetries delay fillRatioInt).fillRatio = true ∧
          w = .elapsed) := by
  generalize NewRetryer numRetries delay fillRatioInt = R
  refine ⟨?_, ?_, ?_, ?_⟩
  · intro h
    simp [retryer.Retry, h]
  · intro h hge
    have h1 : ¬ a ≥ R.numRetries := by omega
    simp [retryer.Retry, h1, F64.lt_false_of_ge r R.fillRatio hge]
  · intro h hlt
    have h1 : ¬ a ≥ R.numRetries := by omega
    simp [retryer.Retry, h1, hlt]
  · unfold retryer.Retry
    by_cases h : a ≥ R.numRetries
    · have h1 : ¬ a < R.numRetries := by omega
      simp [h, h1]
    · have h1 : a < R.numRetries := by omega
      cases hlt : F64.lt r R.fillRatio <;> cases w <;> simp [h, h1]

/-- The retryer of the default configuration (3 attempts, 80 percent) at
three readings: one half approves after the wait, four fifths and a NaN
refuse without a wait. -/
theorem NewRetryer_default_examples :
    (NewRetryer 0 0 80).numRetries = 3 ∧
      (NewRetryer 0 0 80).Retry (.fin (1 / 2)) .elapsed 1 = { approved := true, waited := true } ∧
      (NewRetryer 0 0 80).Retry (.fin (4 / 5)) .elapsed 1 =
        { approved := false, waited := false } ∧
      (NewRetryer 0 0 80).Retry .nan .elapsed 1 = { approved := false, waited := false } ∧
      (NewRetryer 0 0 80).Retry (.fin (1 / 2)) .elapsed 3 =
        { approved := false, waited := false } := by
  refine ⟨by decide, ?_, ?_, ?_, ?_⟩ <;>
    simp [NewRetryer, retryer.Retry, numRetriesDefault, F64.lt] <;> norm_num

/-! ## The request handler -/

theorem NewMultiplexer_fields (opts : Options) (m : Multiplexer)
    (hm : NewMultiplexer opts = some m) :
    m.maxURLs = (if opts.MaxUrls = 0 then 20 else opts.MaxUrls) ∧
      m.retryer =
        (if opts.Retry then .real (NewRetryer opts.NumRetries opts.Delay opts.FillRatio)
         else .dummy) ∧
      m.cache = (match opts.Cache with
        | some C => C
        | none => .dummy) := by
  unfold NewMultiplexer at hm
  simp only at hm
  by_cases hneg :
      (if opts.RequestsLimit ≠ 0 then opts.RequestsLimit else requestLimitDefault) < 0
  · rw [if_pos hneg] at hm
    exact absurd hm (by simp)
  · rw [if_neg hneg] at hm
    injection hm with hm
    subst hm
    refine ⟨?_, rfl, rfl⟩
    by_cases h0 : opts.MaxUrls = 0 <;> simp [h0, maxURLsDefault]

/-- C9: for a multiplexer built by `NewMultiplexer`, whose URL limit `M` is 20
when `Options.MaxUrls` is 0 and `Options.MaxUrls` otherwise, and an admitted
request whose body decodes to `urls`: the handler answers 400 exactly when the
batch is empty or longer than `M`, and then without calling `fetchURLs`;
otherwise it hands `urls` to `fetchURLs`. A batch of `M + 1` URLs gets 400, a
batch of `M` URLs is handed to `fetchURLs`. -/
theorem C9_FetchHandler_batch_size (opts : Options) (m : Multiplexer) (semLen : Nat)
    (urls : List GoString) (fetch : List GoString → BatchOutcome)
    (hm : NewMultiplexer opts = some m) (hadm : semLen < m.semCap) :
    m.maxURLs = (if opts.MaxUrls = 0 then 20 else opts.MaxUrls) ∧
      ((m.FetchHandler semLen (some urls) fetch).status = some 400 ↔
        (urls.length = 0 ∨ (urls.length : Int) > m.maxURLs)) ∧
      ((m.FetchHandler semLen (some urls) fetch).status = some 400 →
        (m.FetchHandler semLen (some urls) fetch).fetched = none) ∧
      (¬ (urls.length = 0 ∨ (urls.length : Int) > m.maxURLs) →
        (m.FetchHandler semLen (some urls) fetch).fetched = some urls) ∧
      ((urls.length : Int) = m.maxURLs + 1 →
        (m.FetchHandler semLen (some urls) fetch).status = some 400 ∧
          (m.FetchHandler semLen (some urls) fetch).fetched = none) ∧
      ((urls.length : Int) = m.maxURLs →
        (m.FetchHandler semLen (some urls) fetch).fetched = some urls) := by
  have hadm1 : ¬ semLen ≥ m.semCap := by omega
  have hM : m.maxURLs = (if opts.MaxUrls = 0 then 20 else opts.MaxUrls) :=
    (NewMultiplexer_fields opts m hm).1
  have hM0 : m.maxURLs ≠ 0 := by
    rw [hM]
    by_cases h0 : opts.MaxUrls = 0 <;> simp [h0]
  have hbad : (urls.length = 0 ∨ (urls.length : Int) > m.maxURLs) →
      m.FetchHandler semLen (some urls) fetch =
        { status := some 400, body := some .tooManyURLs, fetched := none } := by
    intro h
    simp only [Multiplexer.FetchHandler, hadm1, if_false, h, if_true]
  have hgood : ¬ (urls.length = 0 ∨ (urls.length : Int) > m.maxURLs) →
      (m.FetchHandler semLen (some urls) fetch).fetched = some urls ∧
        (m.FetchHandler semLen (some urls) fetch).status ≠ some 400 := by
    intro h
    simp only [Multiplexer.FetchHandler, hadm1, if_false, h]
    cases hf : fetch urls with
    | ret responses err => cases err <;> simp
    | panicked => simp
    | waiting ctx responses => simp
  refine ⟨hM, ?_, ?_, ?_, ?_, ?_⟩
  · constructor
    · intro h
      by_contra hc
      exact (hgood hc).2 h
    · intro h
      rw [hbad h]
  · intro h
    by_cases hc : (urls.length = 0 ∨ (urls.length : Int) > m.maxURLs)
    · rw [hbad hc]
    · exact absurd h (hgood hc).2
  · intro h
    exact (hgood h).1
  · intro h
    have hc : (urls.length = 0 ∨ (urls.length : Int) > m.maxURLs) := Or.inr (by omega)
    rw [hbad hc]
    exact ⟨rfl, rfl⟩
  · intro h
    have hc : ¬ (urls.length = 0 ∨ (urls.length : Int) > m.maxURLs) := by
      intro hc
      rcases hc with hc | hc
      · rw [hc] at h
        exact hM0 h.symm
      · omega
    exact (hgood hc).1

/-- C9, at the run of `TestFetchHandler_TooManyURLs`: `Options{}`, 21 URLs. -/
theorem C9_FetchHandler_batch_size_witness :
    NewMultiplexer zeroOptions = some zeroMultiplexer ∧ 0 < zeroMultiplexer.semCap ∧
      ((List.replicate 21 exampleURL).length : Int) = zeroMultiplexer.maxURLs + 1 ∧
      (zeroMultiplexer.FetchHandler 0 (some (List.replicate 21 exampleURL))
          (fun _ => .ret (some []) none)).status = some 400 ∧
      (zeroMultiplexer.FetchHandler 0 (some (List.replicate 21 exampleURL))
          (fun _ => .ret (some []) none)).fetched = none :=
  ⟨rfl, by decide, by decide,
    (C9_FetchHandler_batch_size zeroOptions zeroMultiplexer 0 (List.replicate 21 exampleURL)
      (fun _ => .ret (some []) none) rfl (by decide)).2.2.2.2.1 (by decide)⟩

/-! ## The per-URL fetch -/

/-- A completed exchange, whatever its status code, leaves the retry loop at
once: the retry policy is not asked. -/
theorem Multiplexer.fetchLoop_resp (m : Multiplexer) (env : FetchEnv)
    (fuel attempts approvals waits : Nat) (code : Int) (body : GoString)
    (readErr : Option GoError) (hctx : env.ctxErr attempts = none)
    (hdo : env.clientDo (attempts + 1) = .resp code body readErr) :
    m.fetchLoop env (fuel + 1) attempts approvals waits =
      .broke (.resp code body readErr) (attempts + 1) approvals waits := by
  simp [Multiplexer.fetchLoop, hctx, hdo]

/-- A failed exchange puts the question to the retry policy, with the running
attempt count. -/
theorem Multiplexer.fetchLoop_err (m : Multiplexer) (env : FetchEnv)
    (fuel attempts approvals waits : Nat) (e : GoError) (hctx : env.ctxErr attempts = none)
    (hdo : env.clientDo (attempts + 1) = .err e) :
    m.fetchLoop env (fuel + 1) attempts approvals waits =
      (if (m.retryer.Retry (m.getRatio (env.semLen (attempts + 1))) (env.wait (attempts + 1))
            ((attempts + 1 : Nat) : Int)).approved = false then
        .broke (.err e) (attempts + 1) approvals
          (if (m.retryer.Retry (m.getRatio (env.semLen (attempts + 1))) (env.wait (attempts + 1))
              ((attempts + 1 : Nat) : Int)).waited then waits + 1 else waits)
      else
        m.fetchLoop env fuel (attempts + 1) (approvals + 1)
          (if (m.retryer.Retry (m.getRatio (env.semLen (attempts + 1))) (env.wait (attempts + 1))
              ((attempts + 1 : Nat) : Int)).waited then waits + 1 else waits)) := by
  simp [Multiplexer.fetchLoop, hctx, hdo]

/-- C10: with `Options.Retry` false the multiplexer holds the `DummyRetryer`,
which approves at attempt 1 and refuses at every attempt from 2 on, whatever
the load; a `fetchURL` on a cache miss, with the request built, the context
never done and every exchange failing, makes two attempts, one of them
approved by the retryer, and returns the error of the second. -/
theorem C10_dummy_retryer_two_attempts (opts : Options) (m : Multiplexer) (env : FetchEnv)
    (fuel : Nat) (url cached : GoString) (miss : GoError) (C : Cache)
    (hm : NewMultiplexer opts = some m) (hoff : opts.Retry = false)
    (hmiss : m.cache.Get env.getNow url = .ret ((cached, some miss), C))
    (hreq : env.newRequestErr = none) (hctx : ∀ i, env.ctxErr i = none)
    (hfail : ∀ k, ∃ e, env.clientDo k = .err e) (hfuel : 2 ≤ fuel) :
    m.retryer = .dummy ∧
      (∀ r w, Retryer.dummy.Retry r w 1 = { approved := true, waited := false }) ∧
      (∀ r w (a : Int), a ≥ 2 →
        Retryer.dummy.Retry r w a = { approved := false, waited := false }) ∧
      ∃ e, env.clientDo 2 = .err e ∧
        m.fetchURL env fuel url =
          .ret { body := [], err := some e, attempts := 2, approvals := 1, waits := 0,
                 cache := C } := by
  have hR : m.retryer = .dummy := by
    rw [(NewMultiplexer_fields opts m hm).2.1]
    simp [hoff]
  refine ⟨hR, ?_, ?_, ?_⟩
  · intro r w
    simp [Retryer.Retry, DummyRetryer.Retry]
  · intro r w a ha
    have h1 : ¬ a < 2 := by omega
    simp [Retryer.Retry, DummyRetryer.Retry, h1]
  · obtain ⟨e1, he1⟩ := hfail 1
    obtain ⟨e2, he2⟩ := hfail 2
    obtain ⟨f, rfl⟩ : ∃ f, fuel = f + 2 := ⟨fuel - 2, by omega⟩
    refine ⟨e2, he2, ?_⟩
    have hloop : m.fetchLoop env (f + 2) 0 0 0 = .broke (.err e2) 2 1 0 := by
      rw [Multiplexer.fetchLoop_err m env (f + 1) 0 0 0 e1 (hctx 0) he1]
      simp only [hR, Retryer.Retry, DummyRetryer.Retry]
      simp only [Nat.zero_add, Nat.cast_one, show ((1 : Int) < 2) from by decide, if_true]
      have h2 : m.fetchLoop env (f + 1) 1 1 0 = .broke (.err e2) 2 1 0 := by
        rw [Multiplexer.fetchLoop_err m env f 1 1 0 e2 (hctx 1) he2]
        simp [hR, Retryer.Retry, DummyRetryer.Retry]
      simp [h2]
    simp [Multiplexer.fetchURL, hmiss, hreq, hloop]

/-- C10, at a server that is never reachable, with `Options{}`. -/
theorem C10_dummy_retryer_two_attempts_witness :
    zeroMultiplexer.fetchURL (quietEnv alwaysDown) 2 exampleURL =
      .ret { body := [], err := some (.transport 2), attempts := 2, approvals := 1, waits := 0,
             cache := .dummy } := by
  obtain ⟨e, he, h⟩ :=
    (C10_dummy_retryer_two_attempts zeroOptions zeroMultiplexer (quietEnv alwaysDown) 2
      exampleURL [] .ErrorNotFoundCacheItem .dummy rfl rfl rfl rfl (fun _ => rfl)
      (fun k => ⟨.transport k, rfl⟩) (by decide)).2.2.2
  have he2 : e = .transport 2 := by
    have h2 : (quietEnv alwaysDown).clientDo 2 = .err (.transport 2) := rfl
    rw [h2] at he
    injection he with he
    exact he.symm
  rw [he2] at h
  exact h

theorem retryMultiplexer_built : NewMultiplexer retryOptions = some retryMultiplexer := by
  simp [NewMultiplexer, retryOptions, retryMultiplexer, NewRetryer, requestLimitDefault,
    maxURLsDefault, workerLimitDefault, fetchTimeoutDefault]

/-- C3, as stated, fails: with 3 attempts allowed, no load and no
cancellation, a URL that answers 500, 500 and then 200 makes `fetchURL` fail
after the first attempt with the status-code error; the retry policy is not
asked once and the body of the third answer is not returned. -/
theorem C3_non200_is_not_retried :
    NewMultiplexer retryOptions = some retryMultiplexer ∧
      twice500 1 = .resp 500 [] none ∧ twice500 2 = .resp 500 [] none ∧
      twice500 3 = .resp 200 popolam none ∧
      retryMultiplexer.fetchURL (quietEnv twice500) 3 exampleURL =
        .ret { body := [], err := some (.statusCode 500 exampleURL), attempts := 1,
               approvals := 0, waits := 0, cache := .dummy } ∧
      retryMultiplexer.fetchURL (quietEnv twice500) 3 exampleURL ≠
        .ret { body := popolam, err := none, attempts := 3, approvals := 2, waits := 2,
               cache := .dummy } := by
  have h : retryMultiplexer.fetchURL (quietEnv twice500) 3 exampleURL =
      .ret { body := [], err := some (.statusCode 500 exampleURL), attempts := 1,
             approvals := 0, waits := 0, cache := .dummy } := by
    simp [Multiplexer.fetchURL, retryMultiplexer, Cache.Get, DummyCache.Get, quietEnv,
      Multiplexer.fetchLoop, twice500]
  refine ⟨?_, rfl, rfl, rfl, h, ?_⟩
  · simp [NewMultiplexer, retryOptions, retryMultiplexer, NewRetryer, requestLimitDefault,
      maxURLsDefault, workerLimitDefault, fetchTimeoutDefault]
  · rw [h]
    simp

/-- C3, amended: in `fetchURL` only an error of `client.Do` is put to the
retry policy; a completed exchange leaves the loop without the policy being
asked, and a status other than 200 then makes `fetchURL` fail with the
status-code error. With 3 attempts allowed, the load below the threshold
throughout and no cancellation, on a cache miss: a URL whose first two
exchanges fail and whose third answers 200 with body `b` makes `fetchURL`
return `b` after three attempts, two approvals and two waits; a URL whose first
exchange answers with a status other than 200 makes it fail after that one
attempt, with no approval and no wait. -/
theorem C3_transport_errors_are_retried (opts : Options) (m : Multiplexer) (env : FetchEnv)
    (fuel : Nat) (url cached : GoString) (miss : GoError) (C : Cache)
    (hm : NewMultiplexer opts = some m) (hon : opts.Retry = true) (hnum : opts.NumRetries = 3)
    (hmiss : m.cache.Get env.getNow url = .ret ((cached, some miss), C))
    (hreq : env.newRequestErr = none) (hctx : ∀ i, env.ctxErr i = none)
    (hafter : env.ctxErrAfter = none)
    (hload : ∀ k, F64.lt (m.getRatio (env.semLen k))
      (NewRetryer opts.NumRetries opts.Delay opts.FillRatio).fillRatio = true)
    (hwait : ∀ k, env.wait k = .elapsed) (hfuel : 3 ≤ fuel) :
    (∀ (attempts approvals waits : Nat) (code : Int) (body : GoString)
        (readErr : Option GoError),
        env.clientDo (attempts + 1) = .resp code body readErr →
        m.fetchLoop env (fuel + 1) attempts approvals waits =
          .broke (.resp code body readErr) (attempts + 1) approvals waits) ∧
      (∀ (e1 e2 : GoError) (b : GoString) (setErr : Option GoError) (C1 : Cache),
        env.clientDo 1 = .err e1 → env.clientDo 2 = .err e2 →
        env.clientDo 3 = .resp 200 b none → C.Set env.setNow url b = .ret (setErr, C1) →
        m.fetchURL env fuel url =
          .ret { body := b, err := none, attempts := 3, approvals := 2, waits := 2,
                 cache := C1 }) ∧
      (∀ (code : Int) (body : GoString) (readErr : Option GoError), code ≠ 200 →
        env.clientDo 1 = .resp code body readErr →
        m.fetchURL env fuel url =
          .ret { body := [], err := some (.statusCode code url), attempts := 1, approvals := 0,
                 waits := 0, cache := C }) := by
  have hR : m.retryer = .real (NewRetryer opts.NumRetries opts.Delay opts.FillRatio) := by
    rw [(NewMultiplexer_fields opts m hm).2.1]
    simp [hon]
  have hcap : (NewRetryer opts.NumRetries opts.Delay opts.FillRatio).numRetries = 3 := by
    simp [NewRetryer, hnum]
  obtain ⟨f, rfl⟩ : ∃ f, fuel = f + 3 := ⟨fuel - 3, by omega⟩
  refine ⟨?_, ?_, ?_⟩
  · intro attempts approvals waits code body readErr hdo
    exact Multiplexer.fetchLoop_resp m env _ attempts approvals waits code body readErr
      (hctx attempts) hdo
  · intro e1 e2 b setErr C1 h1 h2 h3 hset
    have hq : ∀ (k : Nat) (a : Int), a < 3 →
        m.retryer.Retry (m.getRatio (env.semLen k)) (env.wait k) a =
          { approved := true, waited := true } := by
      intro k a ha
      have ha1 : ¬ a ≥ (NewRetryer opts.NumRetries opts.Delay opts.FillRatio).numRetries := by
        rw [hcap]
        omega
      simp [hR, Retryer.Retry, retryer.Retry, ha1, hload k, hwait k]
    have l3 : m.fetchLoop env (f + 1) 2 2 2 = .broke (.resp 200 b none) 3 2 2 :=
      Multiplexer.fetchLoop_resp m env f 2 2 2 200 b none (hctx 2) h3
    have l2 : m.fetchLoop env (f + 2) 1 1 1 = .broke (.resp 200 b none) 3 2 2 := by
      rw [Multiplexer.fetchLoop_err m env (f + 1) 1 1 1 e2 (hctx 1) h2]
      rw [hq (1 + 1) ((1 + 1 : Nat) : Int) (by decide)]
      simpa using l3
    have l1 : m.fetchLoop env (f + 3) 0 0 0 = .broke (.resp 200 b none) 3 2 2 := by
      rw [Multiplexer.fetchLoop_err m env (f + 2) 0 0 0 e1 (hctx 0) h1]
      rw [hq (0 + 1) ((0 + 1 : Nat) : Int) (by decide)]
      simpa using l2
    simp [Multiplexer.fetchURL, hmiss, hreq, l1, hafter, hset]
  · intro code body readErr hcode h1
    have l1 : m.fetchLoop env (f + 3) 0 0 0 = .broke (.resp code body readErr) 1 0 0 :=
      Multiplexer.fetchLoop_resp m env (f + 2) 0 0 0 code body readErr (hctx 0) h1
    simp [Multiplexer.fetchURL, hmiss, hreq, l1, hafter, hcode]

/-- C3 amended, at a server that is unreachable twice and then answers 200. -/
theorem C3_transport_errors_are_retried_witness :
    retryMultiplexer.fetchURL (quietEnv twiceDown) 3 exampleURL =
      .ret { body := popolam, err := none, attempts := 3, approvals := 2, waits := 2,
             cache := .dummy } :=
  (C3_transport_errors_are_retried retryOptions retryMultiplexer (quietEnv twiceDown) 3
    exampleURL [] .ErrorNotFoundCacheItem .dummy retryMultiplexer_built rfl rfl rfl rfl
    (fun _ => rfl) rfl
    (fun _ => by
      simp [Multiplexer.getRatio, retryMultiplexer, quietEnv, NewRetryer, retryOptions, F64.lt])
    (fun _ => rfl) (by decide)).2.1
    (.transport 1) (.transport 2) popolam none .dummy rfl rfl rfl rfl

/-! ## The aggregation loop of `fetchURLs` -/

/-- What the loop does with a result it receives: a body of fewer than 20
bytes makes `res.body[:20]` panic; otherwise the first 20 bytes are recorded
under the URL, and the loop returns if the map has reached `n` keys. -/
theorem Multiplexer.fetchURLsLoop_send (n : Nat) (ctx : Context) (responses : GoMap GoString)
    (res : result) (es : List LoopEvent) :
    Multiplexer.fetchURLsLoop n ctx responses (.worker (.send res) :: es) =
      (if res.body.length < 20 then .panicked
       else if (GoMap.store responses res.url (res.body.take 20)).len ≥ n then
        .ret (some (GoMap.store responses res.url (res.body.take 20))) none
       else
        Multiplexer.fetchURLsLoop n ctx (GoMap.store responses res.url (res.body.take 20)) es) := by
  by_cases h : res.body.length < 20
  · have h1 : ¬ 20 ≤ res.body.length := by omega
    simp [Multiplexer.fetchURLsLoop, sliceTo, h, h1]
  · have h1 : 20 ≤ res.body.length := by omega
    simp [Multiplexer.fetchURLsLoop, sliceTo, h, h1]

/-- Once a worker has cancelled a live context with error `e`, the
`<-ctx.Done()` case returns `ctx.Err()`, which is `context.Canceled`, whatever
`e` is; `e` is what `context.Cause` holds. -/
theorem Multiplexer.fetchURLsLoop_cancel_done (n : Nat) (responses : GoMap GoString)
    (e : GoError) (es : List LoopEvent) :
    Multiplexer.fetchURLsLoop n Context.live responses (.worker (.cancel e) :: .done :: es) =
        .ret none (some .Canceled) ∧
      (Context.live.cancel (some e)).Cause = some e := by
  simp [Multiplexer.fetchURLsLoop, Context.cancel, Context.live, Context.Err, Context.Cause]

theorem GoMap.keys_delete_sublist {V : Type} (m : GoMap V) (k : GoString) :
    List.Sublist (GoMap.delete m k).keys m.keys := by
  unfold GoMap.keys GoMap.delete
  exact (List.filter_sublist m).map Prod.fst

theorem GoMap.not_mem_keys_delete {V : Type} (m : GoMap V) (k : GoString) :
    k ∉ (GoMap.delete m k).keys := by
  simp [GoMap.keys, GoMap.delete, List.mem_filter]

theorem GoMap.keys_store_nodup {V : Type} (m : GoMap V) (k : GoString) (v : V)
    (h : m.keys.Nodup) : (GoMap.store m k v).keys.Nodup := by
  have h1 : (GoMap.store m k v).keys = k :: (GoMap.delete m k).keys := rfl
  rw [h1, List.nodup_cons]
  exact ⟨GoMap.not_mem_keys_delete m k, h.sublist (GoMap.keys_delete_sublist m k)⟩

theorem GoMap.mem_keys_store {V : Type} (m : GoMap V) (k : GoString) (v : V) (u : GoString)
    (h : u ∈ (GoMap.store m k v).keys) : u = k ∨ u ∈ m.keys := by
  have h1 : (GoMap.store m k v).keys = k :: (GoMap.delete m k).keys := rfl
  rw [h1, List.mem_cons] at h
  rcases h with h | h
  · exact Or.inl h
  · exact Or.inr ((GoMap.keys_delete_sublist m k).subset h)

theorem GoMap.store_of_not_mem {V : Type} (m : GoMap V) (k : GoString) (v : V)
    (h : k ∉ m.keys) : GoMap.store m k v = (k, v) :: m := by
  unfold GoMap.store GoMap.delete
  congr 1
  rw [List.filter_eq_self]
  intro e he
  have hne : e.1 ≠ k := by
    intro heq
    exact h (heq ▸ List.mem_map_of_mem Prod.fst he)
  simp [hne]

theorem GoMap.mem_keys_of_lookup {V : Type} (m : GoMap V) (k : GoString) (v : V)
    (h : m.lookup k = some v) : k ∈ m.keys := by
  unfold GoMap.lookup at h
  cases hf : m.find? (fun e => decide (e.1 = k)) with
  | none => simp [hf] at h
  | some e =>
    have h1 := List.find?_some hf
    have h2 := List.mem_of_find?_eq_some hf
    have h3 : e.1 = k := by simpa using h1
    exact h3 ▸ List.mem_map_of_mem Prod.fst h2

/-- Whatever the loop meets, a map it returns has distinct keys, all of them
URLs of received results or keys present before, and at least `n` of them. -/
theorem Multiplexer.fetchURLsLoop_ret_keys (n : Nat) (urls : List GoString) :
    ∀ (events : List LoopEvent) (ctx : Context) (responses r : GoMap GoString),
      responses.keys.Nodup → (∀ u ∈ responses.keys, u ∈ urls) →
      (∀ res, LoopEvent.worker (.send res) ∈ events → res.url ∈ urls) →
      Multiplexer.fetchURLsLoop n ctx responses events = .ret (some r) none →
      r.keys.Nodup ∧ (∀ u ∈ r.keys, u ∈ urls) ∧ n ≤ r.len := by
  intro events
  induction events with
  | nil =>
    intro ctx responses r _ _ _ h
    simp [Multiplexer.fetchURLsLoop] at h
  | cons ev es ih =>
    intro ctx responses r hnd hsub hev h
    have hev1 : ∀ res, LoopEvent.worker (.send res) ∈ es → res.url ∈ urls :=
      fun res hres => hev res (List.mem_cons_of_mem _ hres)
    cases ev with
    | worker a =>
      cases a with
      | cancel e =>
        simp only [Multiplexer.fetchURLsLoop] at h
        exact ih _ responses r hnd hsub hev1 h
      | send res =>
        rw [Multiplexer.fetchURLsLoop_send] at h
        have hurl : res.url ∈ urls := hev res (List.mem_cons_self _ _)
        have hnd1 := GoMap.keys_store_nodup responses res.url (res.body.take 20) hnd
        have hsub1 : ∀ u ∈ (GoMap.store responses res.url (res.body.take 20)).keys, u ∈ urls := by
          intro u hu
          rcases GoMap.mem_keys_store responses res.url _ u hu with h1 | h1
          · exact h1 ▸ hurl
          · exact hsub u h1
        by_cases hlen : res.body.length < 20
        · simp [hlen] at h
        · by_cases hfull : (GoMap.store responses res.url (res.body.take 20)).len ≥ n
          · simp only [hlen, hfull, if_false, if_true] at h
            injection h with h1 _
            injection h1 with h1
            subst h1
            exact ⟨hnd1, hsub1, hfull⟩
          · simp only [hlen, hfull, if_false] at h
            exact ih ctx _ r hnd1 hsub1 hev1 h
    | parentDone err cause =>
      simp only [Multiplexer.fetchURLsLoop] at h
      exact ih _ responses r hnd hsub hev1 h
    | done =>
      simp only [Multiplexer.fetchURLsLoop] at h
      cases hc : ctx.Err with
      | some e => simp [hc] at h
      | none =>
        simp only [hc] at h
        exact ih ctx responses r hnd hsub hev1 h

/-- A batch in which a URL occurs twice is never answered with success: the
map can hold at most as many keys as there are distinct URLs, fewer than
`len(urls)`. -/
theorem Multiplexer.fetchURLs_duplicates_no_success (m : Multiplexer) (parent : Context)
    (urls : List GoString) (events : List LoopEvent) (r : GoMap GoString)
    (hdup : ¬ urls.Nodup)
    (hev : ∀ res, LoopEvent.worker (.send res) ∈ events → res.url ∈ urls) :
    m.fetchURLs parent urls events ≠ .ret (some r) none := by
  intro h
  obtain ⟨hnd, hsub, hlen⟩ :=
    Multiplexer.fetchURLsLoop_ret_keys urls.length urls events _ [] r List.nodup_nil
      (by intro u hu; simp [GoMap.keys] at hu) hev h
  have hsp : List.Subperm r.keys urls := List.subperm_of_subset hnd hsub
  have hlen1 : urls.length ≤ r.keys.length := by
    simpa [GoMap.keys, GoMap.len] using hlen
  exact hdup ((hsp.perm_of_length_le hlen1).nodup_iff.mp hnd)

/-- A batch of distinct URLs, each fetched with a body of at least 20 bytes
and each result received once, in any order, with nothing else happening: the
loop returns success when the last result is received, with a map whose keys
are the URLs received and whose values are the first 20 bytes of the bodies. -/
theorem Multiplexer.fetchURLsLoop_complete (n : Nat) (ctx : Context) :
    ∀ (sends : List result) (responses : GoMap GoString),
      sends ≠ [] → (sends.map result.url).Nodup →
      (∀ res ∈ sends, res.url ∉ responses.keys) → (∀ res ∈ sends, 20 ≤ res.body.length) →
      responses.len + sends.length = n →
      ∃ r, Multiplexer.fetchURLsLoop n ctx responses
            (sends.map (fun res => LoopEvent.worker (.send res))) = .ret (some r) none ∧
        (∀ u, u ∈ r.keys ↔ u ∈ responses.keys ∨ u ∈ sends.map result.url) ∧
        (∀ res ∈ sends, r.lookup res.url = some (res.body.take 20)) ∧
        (∀ u v, responses.lookup u = some v → r.lookup u = some v) := by
  intro sends
  induction sends with
  | nil => intro responses h; exact absurd rfl h
  | cons res rest ih =>
    intro responses _ hnd hfresh hbody hn
    have hres : res.url ∉ responses.keys := hfresh res (List.mem_cons_self _ _)
    have hb : ¬ res.body.length < 20 := by
      have := hbody res (List.mem_cons_self _ _)
      omega
    have hstore := GoMap.store_of_not_mem responses res.url (res.body.take 20) hres
    rw [List.map_cons, Multiplexer.fetchURLsLoop_send]
    simp only [hb, if_false]
    have hlen : (GoMap.store responses res.url (res.body.take 20)).len = responses.len + 1 := by
      rw [hstore]
      simp [GoMap.len]
    have hkeep : ∀ u v, responses.lookup u = some v →
        (GoMap.store responses res.url (res.body.take 20)).lookup u = some v := by
      intro u v huv
      have hu := GoMap.mem_keys_of_lookup responses u v huv
      have hne : res.url ≠ u := fun heq => hres (heq ▸ hu)
      rw [GoMap.lookup_store_ne responses u res.url _ hne]
      exact huv
    cases rest with
    | nil =>
      have hfull : (GoMap.store responses res.url (res.body.take 20)).len ≥ n := by
        rw [hlen]
        simp at hn
        omega
      simp only [hfull, if_true]
      refine ⟨_, rfl, ?_, ?_, hkeep⟩
      · intro u
        rw [hstore]
        simp [GoMap.keys]
        tauto
      · intro res1 hres1
        rw [List.mem_singleton] at hres1
        subst hres1
        exact GoMap.lookup_store_self responses _ _
    | cons res2 rest2 =>
      have hnot : ¬ (GoMap.store responses res.url (res.body.take 20)).len ≥ n := by
        rw [hlen]
        simp at hn
        omega
      simp only [hnot, if_false]
      rw [List.map_cons, List.nodup_cons] at hnd
      obtain ⟨r, hr, hkeys, hvals, hold⟩ :=
        ih (GoMap.store responses res.url (res.body.take 20)) (by simp) hnd.2
          (by
            intro res1 hres1 hmem
            rcases GoMap.mem_keys_store responses res.url _ _ hmem with h1 | h1
            · exact hnd.1 (h1 ▸ List.mem_map_of_mem result.url hres1)
            · exact hfresh res1 (List.mem_cons_of_mem _ hres1) h1)
          (fun res1 hres1 => hbody res1 (List.mem_cons_of_mem _ hres1))
          (by
            rw [hlen]
            simp at hn ⊢
            omega)
      refine ⟨r, hr, ?_, ?_, ?_⟩
      · intro u
        rw [hkeys u, hstore]
        simp [GoMap.keys]
        tauto
      · intro res1 hres1
        rcases List.mem_cons.mp hres1 with h1 | h1
        · subst h1
          exact hold _ _ (GoMap.lookup_store_self responses _ _)
        · exact hvals res1 h1
      · intro u v huv
        exact hold u v (hkeep u v huv)

/-- C1: a result whose body has 7 bytes, received by the loop of a
batch of one URL: the slice `res.body[:20]` is out of range and `fetchURLs`
panics, where the body itself should have been recorded. -/
theorem C1_short_body_panics :
    popolam.length = 7 ∧ sliceTo popolam 20 = none ∧
      Multiplexer.worker exampleURL popolam none =
        .send { url := exampleURL, body := popolam } ∧
      zeroMultiplexer.fetchURLs Context.live [exampleURL]
          [.worker (.send { url := exampleURL, body := popolam })] = .panicked := by
  refine ⟨by decide, by decide, by decide, by decide⟩

/-- C2: a batch of one URL whose worker gets the error "got 500 status code"
from `fetchURL` and is the first to cancel the context: the worker calls
`cancel` with that error, the cause recorded in the context is that error, and
`fetchURLs` returns `ctx.Err()`, which is `context.Canceled` and not the
worker's error. -/
theorem C2_batch_error_is_generic_cancellation :
    Multiplexer.worker exampleURL [] (some got500) = .cancel got500 ∧
      (Context.live.cancel (some got500)).Cause = some got500 ∧
      (Context.live.cancel (some got500)).Err = some .Canceled ∧
      zeroMultiplexer.fetchURLs Context.live [exampleURL]
          [.worker (.cancel got500), .done] = .ret none (some .Canceled) ∧
      GoError.Canceled ≠ got500 := by
  refine ⟨by decide, by decide, by decide, by decide, by decide⟩

/-- C5: a batch of two equal URLs whose fetches both succeed with a body of 20
bytes, the context never done: after both results are received the map has one
key, the test `len(responses) >= len(urls)` fails, and `fetchURLs` is still in
its `select`; it has not returned. -/
theorem C5_duplicate_urls_never_complete :
    zeroMultiplexer.fetchURLs Context.live [exampleURL, exampleURL]
        [.worker (.send { url := exampleURL, body := body20 }),
         .worker (.send { url := exampleURL, body := body20 })] =
      .waiting Context.live [(exampleURL, body20)] := by
  decide

end HttpServer
